import Mathlib

/-!
Shallow embedding of the employee-mention matching core of the
review-analysis repository (`scripts/create_dataset.py`, duplicated in
`scripts/process_takeout.py`), together with models of the Python standard
library routines that the core delegates to:

* `difflib.SequenceMatcher(None, a, b).ratio()` — Ratcliff/Obershelp
  matching-block similarity.  The model mirrors CPython's
  `find_longest_match` (the dynamic programming over `b2j`, the
  smallest-`i`/smallest-`j` tie break, and the two non-junk extension
  loops).  The autojunk heuristic only acts on second strings of length
  at least 200 and is omitted; every theorem below that depends on a
  concrete similarity value evaluates it on short strings, where the
  model agrees with CPython exactly.  Python floats are modelled by exact
  rationals: for the short strings involved, the order and equality
  comparisons performed by the code (`score > best_score`,
  `score >= 0.8`) agree between IEEE doubles and the exact values.

* the `re` module, restricted to the eight hard-coded extraction
  patterns and the capitalized-word scan.  A small backtracking engine
  over an explicit abstract syntax reproduces the relevant semantics
  (leftmost non-overlapping `finditer`, greedy repetition, left-to-right
  alternation, `\b` word boundaries, `re.IGNORECASE`).  Character
  classes follow CPython's behaviour on ASCII text; all concrete inputs
  used below are ASCII.

Strings are lists of characters (`Str`); Python `None`/`NaN` review text
is `Option.none`.  The roster dictionary is an insertion-ordered
association list, matching Python's dict iteration order.
-/

namespace ReviewAnalysis

abbrev Str := List Char

def isAsciiUpper (c : Char) : Bool := 'A' ≤ c && c ≤ 'Z'

def isAsciiLower (c : Char) : Bool := 'a' ≤ c && c ≤ 'z'

def isAsciiAlpha (c : Char) : Bool := isAsciiUpper c || isAsciiLower c

def isAsciiDigit (c : Char) : Bool := '0' ≤ c && c ≤ '9'

/-- Python `\w` on ASCII text: letters, digits, underscore. -/
def isWordChar (c : Char) : Bool := isAsciiAlpha c || isAsciiDigit c || c == '_'

/-- Python `\s` on ASCII text: space, tab, newline, carriage return,
vertical tab, form feed. -/
def isSpaceChar (c : Char) : Bool :=
  c == ' ' || c == '\t' || c == '\n' || c == '\r' || c == Char.ofNat 11 || c == Char.ofNat 12

/-- Python `str.lower` on ASCII text. -/
def lowerChar (c : Char) : Char :=
  if isAsciiUpper c then Char.ofNat (c.toNat + 32) else c

def lowerStr (s : Str) : Str := s.map lowerChar

/-! ### `difflib.SequenceMatcher` (no junk, no autojunk) -/

/-- State of CPython's `find_longest_match` sweep: current best block and
the `j2len` table of the previous row (as a total function, absent keys
mapping to 0). -/
structure FLMState where
  besti : Nat
  bestj : Nat
  bestsize : Nat
  j2len : Nat → Nat

/-- One iteration of the outer `for i in range(alo, ahi)` loop of
`find_longest_match`: walk the positions `j` of `a[i]` in `b` (ascending,
restricted to `[blo, bhi)`), extend runs via the previous row's `j2len`,
and update the best block on strictly larger size (so the smallest `i`,
then the smallest `j`, wins ties). -/
def flmRow (a b : Str) (blo bhi i : Nat) (st : FLMState) : FLMState :=
  let js := (List.range b.length).filter
    (fun j => decide (blo ≤ j) && decide (j < bhi) && (b.getD j ' ' == a.getD i ' '))
  let step := fun (acc : (Nat → Nat) × Nat × Nat × Nat) (j : Nat) =>
    let (nj, bi, bj, bs) := acc
    let k := (if j = 0 then 0 else st.j2len (j - 1)) + 1
    let nj' := fun x => if x = j then k else nj x
    if bs < k then (nj', i + 1 - k, j + 1 - k, k) else (nj', bi, bj, bs)
  let r := js.foldl step ((fun _ => 0), st.besti, st.bestj, st.bestsize)
  ⟨r.2.1, r.2.2.1, r.2.2.2, r.1⟩

def flmSweep (a b : Str) (alo ahi blo bhi : Nat) : FLMState :=
  (List.range' alo (ahi - alo)).foldl (fun st i => flmRow a b blo bhi i st)
    ⟨alo, blo, 0, fun _ => 0⟩

/-- The first extension loop of `find_longest_match` (extend the best
block leftwards over equal characters; the junk predicate is constantly
false here, so the `isbjunk` tests vanish).  Structural recursion on a
fuel argument; each step decrements `besti`, so fuel `besti` suffices
(at fuel 0 the guard `alo < 0` is false anyway). -/
def extLeftGo (a b : Str) (alo blo : Nat) : Nat → Nat → Nat → Nat → Nat × Nat × Nat
  | 0, besti, bestj, bestsize => (besti, bestj, bestsize)
  | fuel + 1, besti, bestj, bestsize =>
    if alo < besti ∧ blo < bestj ∧ a.getD (besti - 1) ' ' = b.getD (bestj - 1) ' ' then
      extLeftGo a b alo blo fuel (besti - 1) (bestj - 1) (bestsize + 1)
    else (besti, bestj, bestsize)

def extLeft (a b : Str) (alo blo besti bestj bestsize : Nat) : Nat × Nat × Nat :=
  extLeftGo a b alo blo besti besti bestj bestsize

/-- The second extension loop (extend rightwards).  Each step increments
`bestsize` while `besti + bestsize < ahi`, so fuel `ahi` suffices. -/
def extRightGo (a b : Str) (ahi bhi besti bestj : Nat) : Nat → Nat → Nat
  | 0, bestsize => bestsize
  | fuel + 1, bestsize =>
    if besti + bestsize < ahi ∧ bestj + bestsize < bhi ∧
        a.getD (besti + bestsize) ' ' = b.getD (bestj + bestsize) ' ' then
      extRightGo a b ahi bhi besti bestj fuel (bestsize + 1)
    else bestsize

def extRight (a b : Str) (ahi bhi besti bestj bestsize : Nat) : Nat :=
  extRightGo a b ahi bhi besti bestj ahi bestsize

/-- Function `SequenceMatcher.find_longest_match` on the window
`a[alo:ahi]` × `b[blo:bhi]`, with no junk.  The two remaining loops of
the CPython source extend only over junk characters and never fire. -/
def find_longest_match (a b : Str) (alo ahi blo bhi : Nat) : Nat × Nat × Nat :=
  let st := flmSweep a b alo ahi blo bhi
  let e := extLeft a b alo blo st.besti st.bestj st.bestsize
  (e.1, e.2.1, extRight a b ahi bhi e.1 e.2.1 e.2.2)

/-- Total size of the matching blocks (`get_matching_blocks` recursion:
take the longest match of the window, recurse on the left and right
remainders).  Each recursive window is strictly shorter on the `a` side,
so fuel `a.length + 1` is never exhausted. -/
def matchingTotal (a b : Str) : Nat → Nat × Nat × Nat × Nat → Nat
  | 0, _ => 0
  | fuel + 1, (alo, ahi, blo, bhi) =>
    let r := find_longest_match a b alo ahi blo bhi
    if r.2.2 = 0 then 0
    else r.2.2 + matchingTotal a b fuel (alo, r.1, blo, r.2.1) +
      matchingTotal a b fuel (r.1 + r.2.2, ahi, r.2.1 + r.2.2, bhi)

/-- Ratio `SequenceMatcher(None, a, b).ratio()` = `2*M/T`, or `1.0` when both
strings are empty (`mkRat n d` is the exact rational `n / d`). -/
def ratioValue (a b : Str) : ℚ :=
  let T := a.length + b.length
  if T = 0 then 1
  else mkRat (2 * (matchingTotal a b (a.length + 1) (0, a.length, 0, b.length))) T

/-- Function `similarity_score` of `scripts/create_dataset.py` (lines 91–93):
`SequenceMatcher(None, a.lower(), b.lower()).ratio()`. -/
def similarity_score (a b : Str) : ℚ := ratioValue (lowerStr a) (lowerStr b)

/-! ### A backtracking regex engine for the extraction patterns

Constructs: character class, greedy counted repetition of a class
(`p{m,}`, covering `*`, `+` and `{2,}`), sequencing, ordered
alternation, the single capturing group, and the `\b` assertion — enough
for the eight patterns and the capitalized-word scan, with Python's
backtracking order (greedy repetition tries the longest count first,
alternation tries the left branch first). -/

inductive RE where
  | eps : RE
  | cls : (Char → Bool) → RE
  | rep : (Char → Bool) → Nat → RE
  | seq : RE → RE → RE
  | alt : RE → RE → RE
  | grp : RE → RE
  | wordB : RE

/-- Result of matching at a position: end of the whole match and the
span of group 1 (if the group participated). -/
abbrev MRes := Nat × Option (Nat × Nat)

def wordAt (t : Str) (i : Nat) : Bool := decide (i < t.length) && isWordChar (t.getD i ' ')

/-- Python `\b`: exactly one side of the position is a word character. -/
def atBoundary (t : Str) (pos : Nat) : Bool :=
  (if pos = 0 then false else wordAt t (pos - 1)) != wordAt t pos

/-- Length of the run of characters satisfying `p` starting at `pos`. -/
def runLen (t : Str) (p : Char → Bool) (pos : Nat) : Nat :=
  ((t.drop pos).takeWhile p).length

/-- Greedy backtracking over a repetition count: try `n` first, then
`n - 1`, …, down to `minRep`.  `k` receives the number of characters
consumed. -/
def repTry (k : Nat → Option MRes) (minRep : Nat) : Nat → Option MRes
  | 0 => if minRep = 0 then k 0 else none
  | n + 1 =>
    if n + 1 < minRep then none
    else match k (n + 1) with
      | some r => some r
      | none => repTry k minRep n

/-- CPS backtracking matcher.  `cap` is the group-1 span recorded so
far; `k` is the continuation receiving the next position and capture. -/
def reMatch (t : Str) : RE → Nat → Option (Nat × Nat) →
    (Nat → Option (Nat × Nat) → Option MRes) → Option MRes
  | RE.eps, pos, cap, k => k pos cap
  | RE.cls p, pos, cap, k =>
    if pos < t.length then
      (if p (t.getD pos ' ') then k (pos + 1) cap else none)
    else none
  | RE.rep p m, pos, cap, k => repTry (fun n => k (pos + n) cap) m (runLen t p pos)
  | RE.seq r1 r2, pos, cap, k => reMatch t r1 pos cap (fun q c => reMatch t r2 q c k)
  | RE.alt r1 r2, pos, cap, k =>
    match reMatch t r1 pos cap k with
    | some r => some r
    | none => reMatch t r2 pos cap k
  | RE.grp r, pos, cap, k => reMatch t r pos cap (fun q _ => k q (some (pos, q)))
  | RE.wordB, pos, cap, k => if atBoundary t pos then k pos cap else none

/-- Attempt an (unanchored-at-`pos`) match of the whole pattern starting
exactly at `pos`. -/
def reMatchAt (re : RE) (t : Str) (pos : Nat) : Option MRes :=
  reMatch t re pos none (fun p c => some (p, c))

/-- Model of `re.finditer`: leftmost matches, scanning positions left to right,
continuing after the end of each (non-empty) match.  Collects the
group-1 spans.  Fuel `t.length + 1` bounds the number of scan positions. -/
def finditerCaps (re : RE) (t : Str) : Nat → Nat → List (Nat × Nat)
  | 0, _ => []
  | fuel + 1, pos =>
    if pos > t.length then []
    else match reMatchAt re t pos with
      | some (endPos, some c) =>
        c :: finditerCaps re t fuel (if pos < endPos then endPos else pos + 1)
      | some (endPos, none) => finditerCaps re t fuel (if pos < endPos then endPos else pos + 1)
      | none => finditerCaps re t fuel (pos + 1)

def reFindCaps (re : RE) (t : Str) : List (Nat × Nat) :=
  finditerCaps re t (t.length + 1) 0

/-- Python slice `t[i:j]` (for `i ≤ j`). -/
def slice (t : Str) (i j : Nat) : Str := (t.drop i).take (j - i)

/-- Python `str.strip()` on ASCII text. -/
def pyStrip (s : Str) : Str :=
  (((s.dropWhile isSpaceChar).reverse).dropWhile isSpaceChar).reverse

/-! ### The eight extraction patterns (compiled with `re.IGNORECASE`)

Under `IGNORECASE`, `[A-Z]` and `[a-z]` both match any ASCII letter, and
literals compare case-insensitively. -/

def litIC (s : Str) : RE :=
  s.foldr (fun c r => RE.seq (RE.cls (fun x => lowerChar x == c)) r) RE.eps

def alts : List RE → RE
  | [] => RE.cls (fun _ => false)
  | [r] => r
  | r :: rs => RE.alt r (alts rs)

def altLits (ss : List Str) : RE := alts (ss.map litIC)

def seqs : List RE → RE
  | [] => RE.eps
  | [r] => r
  | r :: rs => RE.seq r (seqs rs)

def opt (r : RE) : RE := RE.alt r RE.eps

/-- Group `([A-Z][a-z]+)` under `IGNORECASE`. -/
def nameGrp : RE := RE.grp (RE.seq (RE.cls isAsciiAlpha) (RE.rep isAsciiAlpha 1))

def roles : RE :=
  altLits ["server".toList, "waiter".toList, "waitress".toList, "bartender".toList,
    "host".toList, "hostess".toList]

def spaces1 : RE := RE.rep isSpaceChar 1

def spaces0 : RE := RE.rep isSpaceChar 0

def commaSp1 : RE := RE.rep (fun c => c == ',' || isSpaceChar c) 1

/-- Pattern `\b([A-Z][a-z]+)\s+(?:was|is|had|did|helped|served|took)\b` -/
def pat1 : RE :=
  seqs [RE.wordB, nameGrp, spaces1,
    altLits ["was".toList, "is".toList, "had".toList, "did".toList, "helped".toList,
      "served".toList, "took".toList], RE.wordB]

/-- Pattern `(?:server|waiter|waitress|bartender|host|hostess)\s+([A-Z][a-z]+)` -/
def pat2 : RE := seqs [roles, spaces1, nameGrp]

/-- Pattern `(?:our|my)?\s*(?:server|waiter|waitress|bartender|host|hostess)[,\s]+([A-Z][a-z]+)` -/
def pat3 : RE :=
  seqs [opt (altLits ["our".toList, "my".toList]), spaces0, roles, commaSp1, nameGrp]

/-- Pattern `\b([A-Z][a-z]+)(?:\s+[A-Z][a-z]*)?[,\s]+(?:our|my|the)?\s*(?:server|…|hostess)` -/
def pat4 : RE :=
  seqs [RE.wordB, nameGrp,
    opt (seqs [spaces1, RE.cls isAsciiAlpha, RE.rep isAsciiAlpha 0]),
    commaSp1, opt (altLits ["our".toList, "my".toList, "the".toList]), spaces0, roles]

/-- Pattern `(?:Thanks?|Thank\s+you),?\s+([A-Z][a-z]+)[!\.\s]` -/
def pat5 : RE :=
  seqs [RE.alt (RE.seq (litIC "thank".toList) (opt (litIC "s".toList)))
      (seqs [litIC "thank".toList, spaces1, litIC "you".toList]),
    opt (litIC ",".toList), spaces1, nameGrp,
    RE.cls (fun c => c == '!' || c == '.' || isSpaceChar c)]

/-- Pattern `\b([A-Z][a-z]+)\s+(?:provided|delivered|gave|recommended|suggested)` -/
def pat6 : RE :=
  seqs [RE.wordB, nameGrp, spaces1,
    altLits ["provided".toList, "delivered".toList, "gave".toList, "recommended".toList,
      "suggested".toList]]

/-- Pattern `(?:served\s+by|helped\s+by)\s+([A-Z][a-z]+)` -/
def pat7 : RE :=
  seqs [RE.alt (seqs [litIC "served".toList, spaces1, litIC "by".toList])
      (seqs [litIC "helped".toList, spaces1, litIC "by".toList]),
    spaces1, nameGrp]

/-- Pattern `\b([A-Z][a-z]+)\s+(?:at\s+the\s+)?(?:bar|front|host)` -/
def pat8 : RE :=
  seqs [RE.wordB, nameGrp, spaces1,
    opt (seqs [litIC "at".toList, spaces1, litIC "the".toList, spaces1]),
    altLits ["bar".toList, "front".toList, "host".toList]]

def extractorPatterns : List RE := [pat1, pat2, pat3, pat4, pat5, pat6, pat7, pat8]

/-- Pattern `\b[A-Z][a-z]{2,}\b` (no `IGNORECASE`): the capitalized-word scan,
with the whole match wrapped in the group so `findall` returns it. -/
def scanRE : RE :=
  seqs [RE.wordB, RE.grp (RE.seq (RE.cls isAsciiUpper) (RE.rep isAsciiLower 2)), RE.wordB]

/-! ### `extract_potential_names` (`scripts/create_dataset.py`, lines 95–127) -/

/-- The capitalized stop-list of the word scan (line 124), verbatim.
The source compares `word.lower()` against these capitalized strings. -/
def capitalizedStopWords : List Str :=
  ["The".toList, "This".toList, "That".toList, "They".toList, "There".toList,
   "When".toList, "Where".toList, "What".toList, "Who".toList, "Why".toList,
   "How".toList, "And".toList, "But".toList, "Or".toList, "So".toList,
   "Very".toList, "Really".toList, "Great".toList, "Good".toList, "Bad".toList,
   "Nice".toList, "Food".toList, "Service".toList, "Restaurant".toList,
   "Place".toList, "Time".toList, "First".toList, "Last".toList, "Next".toList,
   "Best".toList, "Worst".toList, "Perfect".toList, "Amazing".toList,
   "Awesome".toList, "Terrible".toList, "Horrible".toList, "Excellent".toList,
   "Outstanding".toList, "Wonderful".toList, "Fantastic".toList, "Incredible".toList]

/-- Captures of the eight contextual patterns, stripped and filtered to
length ≥ 3, in pattern order then match order (lines 112–118). -/
def patternTokens (t : Str) : List Str :=
  (extractorPatterns.map (fun p =>
    (((reFindCaps p t).map (fun c => pyStrip (slice t c.1 c.2))).filter
      (fun n => decide (3 ≤ n.length))))).flatten

/-- The capitalized-word scan with the (dead, see `capitalizedStopWords`)
stop check `word.lower() not in [...]` (lines 121–125). -/
def scanTokens (t : Str) : List Str :=
  ((reFindCaps scanRE t).map (fun c => slice t c.1 c.2)).filter
    (fun w => !(capitalizedStopWords.contains (lowerStr w)))

/-- Model of `list(set(xs))`.  CPython's set iteration order over strings
is hash-seed dependent; this model fixes first-occurrence order.  No
theorem below depends on the order this function produces beyond the
singleton case, where all orders coincide. -/
def dedupAux : List Str → List Str → List Str
  | _, [] => []
  | seen, x :: xs =>
    if seen.contains x then dedupAux seen xs else x :: dedupAux (x :: seen) xs

def pySetToList (l : List Str) : List Str := dedupAux [] l

/-- Function `extract_potential_names` (lines 95–127).  `none` models a
missing / NaN comment (`pd.isna`); the empty string is falsy in Python,
so both return `[]` at once. -/
def extract_potential_names (text : Option Str) : List Str :=
  match text with
  | none => []
  | some t => if t.isEmpty then [] else pySetToList (patternTokens t ++ scanTokens t)

/-! ### `match_employee_to_review` (lines 129–165) -/

structure EmployeeInfo where
  full_name : Str
  first_name : Str
  restaurants : List Str
deriving DecidableEq

/-- The employee dictionary: insertion-ordered map from lowercased first
name to employee info (Python dicts iterate in insertion order). -/
abbrev EmployeeDict := List (Str × EmployeeInfo)

structure MatchResult where
  potential_name : Str
  matched_employee : Str
  confidence : ℚ
deriving DecidableEq

/-- The resolver's lowercase stop-list (line 136), verbatim. -/
def resolverStopWords : List Str :=
  ["and".toList, "the".toList, "was".toList, "had".toList, "our".toList,
   "very".toList, "great".toList, "good".toList, "food".toList, "service".toList,
   "place".toList, "time".toList, "first".toList, "last".toList, "next".toList,
   "best".toList, "nice".toList, "said".toList, "just".toList, "that".toList,
   "this".toList, "they".toList, "with".toList, "were".toList, "have".toList,
   "been".toList, "will".toList, "would".toList, "could".toList, "should".toList,
   "made".toList, "came".toList, "went".toList, "got".toList, "get".toList,
   "one".toList, "two".toList, "all".toList, "but".toList, "not".toList,
   "can".toList, "did".toList, "has".toList, "are".toList, "for".toList,
   "you".toList, "your".toList, "his".toList, "her".toList, "him".toList,
   "she".toList, "he".toList, "we".toList, "us".toList, "me".toList,
   "my".toList, "so".toList, "if".toList, "or".toList, "an".toList,
   "as".toList, "at".toList, "be".toList, "by".toList, "do".toList,
   "in".toList, "is".toList, "it".toList, "no".toList, "of".toList,
   "on".toList, "to".toList, "up".toList, "clearly".toList]

/-- The inner roster loop (lines 144–156): scan the dictionary in order,
skip entries not assigned to the reviewed restaurant, and keep the entry
whose first-name similarity is strictly larger than the running best and
at least `min_similarity`. -/
def bestFor (candidate restaurant : Str) (min_similarity : ℚ) :
    EmployeeDict → Option Str × ℚ × Option EmployeeInfo → Option Str × ℚ × Option EmployeeInfo
  | [], acc => acc
  | (_, e) :: rest, (bm, bs, bi) =>
    if restaurant ∈ e.restaurants then
      let score := similarity_score candidate e.first_name
      if bs < score ∧ min_similarity ≤ score then
        bestFor candidate restaurant min_similarity rest (some e.full_name, score, some e)
      else bestFor candidate restaurant min_similarity rest (bm, bs, bi)
    else bestFor candidate restaurant min_similarity rest (bm, bs, bi)

/-- The outer candidate loop (lines 134–163).  `if best_match:` is
Python truthiness: `None` and the empty string are both falsy. -/
def matchLoop (restaurant : Str) (dict : EmployeeDict) (min_similarity : ℚ) :
    List Str → List MatchResult
  | [] => []
  | p :: ps =>
    if lowerStr p ∈ resolverStopWords then matchLoop restaurant dict min_similarity ps
    else
      match bestFor p restaurant min_similarity dict (none, 0, none) with
      | (some bm, bs, _) =>
        if bm.isEmpty then matchLoop restaurant dict min_similarity ps
        else ⟨p, bm, bs⟩ :: matchLoop restaurant dict min_similarity ps
      | (none, _, _) => matchLoop restaurant dict min_similarity ps

/-- Function `match_employee_to_review` (lines 129–165), default
`min_similarity=0.8` (`mkRat 4 5`). -/
def match_employee_to_review (review_text : Option Str) (restaurant_name : Str)
    (employee_dict : EmployeeDict) (min_similarity : ℚ := mkRat 4 5) : List MatchResult :=
  matchLoop restaurant_name employee_dict min_similarity
    (extract_potential_names review_text)

/-! ### `add_employee_matches_to_dataframe` (lines 167–210) -/

/-- One input review row.  `recent` is the value of the line-175 mask
`published_datetime >= six_months_ago` for this row — the comparison
against the wall clock is external to the embedding, so the mask value is
carried as a field. -/
structure ReviewRow where
  restaurant : Str
  comment : Option Str
  recent : Bool
deriving DecidableEq

/-- A row after the pass.  `none` models a column that was never added
(the early return at lines 169–171 adds no columns). -/
structure AnnotatedRow where
  row : ReviewRow
  mentioned_employees : Option Str
  employee_matches : Option Str
  employee_confidence : Option Str
deriving DecidableEq

/-- Python `'; '.join`. -/
def joinSemicolon : List Str → Str
  | [] => []
  | [x] => x
  | x :: xs => x ++ ';' :: ' ' :: joinSemicolon xs

def natDigits (n : Nat) : Str := Nat.toDigits 10 n

/-- Python `f"{c:.2f}"` for the nonnegative scores produced here:
round to the nearest hundredth.  `⌊q*100 + 1/2⌋` written on the
numerator/denominator directly as `(200*num + den) fdiv (2*den)` (the
exact tie behaviour of IEEE formatting never arises for the values any
theorem evaluates). -/
def format2f (q : ℚ) : Str :=
  let n := (Int.fdiv (200 * q.num + q.den) (2 * q.den)).toNat
  natDigits (n / 100) ++ '.' :: (if n % 100 < 10 then '0' :: natDigits (n % 100) else natDigits (n % 100))

/-- Lines 200–206: the three semicolon-joined, index-aligned strings
derived from one review's match list. -/
def renderTriple (ms : List MatchResult) : Str × Str × Str :=
  (joinSemicolon (ms.map (fun m => m.potential_name)),
   joinSemicolon (ms.map (fun m => m.matched_employee)),
   joinSemicolon (ms.map (fun m => format2f m.confidence)))

/-- Lines 190–206 for a single row: recent rows are matched; rows with
no match (and non-recent rows) keep the initialised empty strings. -/
def annotateRow (employee_dict : EmployeeDict) (r : ReviewRow) : AnnotatedRow :=
  if r.recent then
    let ms := match_employee_to_review r.comment r.restaurant employee_dict
    if ms.isEmpty then ⟨r, some [], some [], some []⟩
    else
      let tr := renderTriple ms
      ⟨r, some tr.1, some tr.2.1, some tr.2.2⟩
  else ⟨r, some [], some [], some []⟩

/-- Function `add_employee_matches_to_dataframe` (lines 167–210).  With
an empty dictionary the function returns the dataframe unchanged — the
three columns are never created. -/
def add_employee_matches_to_dataframe (df : List ReviewRow) (employee_dict : EmployeeDict) :
    List AnnotatedRow :=
  if employee_dict.isEmpty then df.map (fun r => ⟨r, none, none, none⟩)
  else df.map (annotateRow employee_dict)

/-! ### The duplicated matching core of `scripts/process_takeout.py`

Lines 93–167 of `scripts/process_takeout.py` repeat the three matching
functions of `scripts/create_dataset.py` (lines 91–165): same regex
pattern literals, same stop-lists, same loops.  The definitions below
re-translate that file's copies (sharing only the models of the Python
standard library and the pattern abstract syntax, which both files
obtain from identical source literals). -/

namespace ProcessTakeout

/-- Function `similarity_score` of `scripts/process_takeout.py` (lines 93–95). -/
def similarity_score (a b : Str) : ℚ := ratioValue (lowerStr a) (lowerStr b)

/-- The capitalized stop-list at line 126 of `scripts/process_takeout.py`. -/
def capitalizedStopWords : List Str :=
  ["The".toList, "This".toList, "That".toList, "They".toList, "There".toList,
   "When".toList, "Where".toList, "What".toList, "Who".toList, "Why".toList,
   "How".toList, "And".toList, "But".toList, "Or".toList, "So".toList,
   "Very".toList, "Really".toList, "Great".toList, "Good".toList, "Bad".toList,
   "Nice".toList, "Food".toList, "Service".toList, "Restaurant".toList,
   "Place".toList, "Time".toList, "First".toList, "Last".toList, "Next".toList,
   "Best".toList, "Worst".toList, "Perfect".toList, "Amazing".toList,
   "Awesome".toList, "Terrible".toList, "Horrible".toList, "Excellent".toList,
   "Outstanding".toList, "Wonderful".toList, "Fantastic".toList, "Incredible".toList]

def patternTokens (t : Str) : List Str :=
  (extractorPatterns.map (fun p =>
    (((reFindCaps p t).map (fun c => pyStrip (slice t c.1 c.2))).filter
      (fun n => decide (3 ≤ n.length))))).flatten

def scanTokens (t : Str) : List Str :=
  ((reFindCaps scanRE t).map (fun c => slice t c.1 c.2)).filter
    (fun w => !(capitalizedStopWords.contains (lowerStr w)))

/-- Function `extract_potential_names` of `scripts/process_takeout.py`
(lines 97–129). -/
def extract_potential_names (text : Option Str) : List Str :=
  match text with
  | none => []
  | some t => if t.isEmpty then [] else pySetToList (patternTokens t ++ scanTokens t)

/-- The resolver stop-list at line 138 of `scripts/process_takeout.py`. -/
def resolverStopWords : List Str :=
  ["and".toList, "the".toList, "was".toList, "had".toList, "our".toList,
   "very".toList, "great".toList, "good".toList, "food".toList, "service".toList,
   "place".toList, "time".toList, "first".toList, "last".toList, "next".toList,
   "best".toList, "nice".toList, "said".toList, "just".toList, "that".toList,
   "this".toList, "they".toList, "with".toList, "were".toList, "have".toList,
   "been".toList, "will".toList, "would".toList, "could".toList, "should".toList,
   "made".toList, "came".toList, "went".toList, "got".toList, "get".toList,
   "one".toList, "two".toList, "all".toList, "but".toList, "not".toList,
   "can".toList, "did".toList, "has".toList, "are".toList, "for".toList,
   "you".toList, "your".toList, "his".toList, "her".toList, "him".toList,
   "she".toList, "he".toList, "we".toList, "us".toList, "me".toList,
   "my".toList, "so".toList, "if".toList, "or".toList, "an".toList,
   "as".toList, "at".toList, "be".toList, "by".toList, "do".toList,
   "in".toList, "is".toList, "it".toList, "no".toList, "of".toList,
   "on".toList, "to".toList, "up".toList, "clearly".toList]

def bestFor (candidate restaurant : Str) (min_similarity : ℚ) :
    EmployeeDict → Option Str × ℚ × Option EmployeeInfo → Option Str × ℚ × Option EmployeeInfo
  | [], acc => acc
  | (_, e) :: rest, (bm, bs, bi) =>
    if restaurant ∈ e.restaurants then
      let score := similarity_score candidate e.first_name
      if bs < score ∧ min_similarity ≤ score then
        bestFor candidate restaurant min_similarity rest (some e.full_name, score, some e)
      else bestFor candidate restaurant min_similarity rest (bm, bs, bi)
    else bestFor candidate restaurant min_similarity rest (bm, bs, bi)

def matchLoop (restaurant : Str) (dict : EmployeeDict) (min_similarity : ℚ) :
    List Str → List MatchResult
  | [] => []
  | p :: ps =>
    if lowerStr p ∈ resolverStopWords then matchLoop restaurant dict min_similarity ps
    else
      match bestFor p restaurant min_similarity dict (none, 0, none) with
      | (some bm, bs, _) =>
        if bm.isEmpty then matchLoop restaurant dict min_similarity ps
        else ⟨p, bm, bs⟩ :: matchLoop restaurant dict min_similarity ps
      | (none, _, _) => matchLoop restaurant dict min_similarity ps

/-- Function `match_employee_to_review` of `scripts/process_takeout.py`
(lines 131–167). -/
def match_employee_to_review (review_text : Option Str) (restaurant_name : Str)
    (employee_dict : EmployeeDict) (min_similarity : ℚ := mkRat 4 5) : List MatchResult :=
  matchLoop restaurant_name employee_dict min_similarity
    (extract_potential_names review_text)

end ProcessTakeout

/-! ### Helper lemmas -/

/-- Invariant of the inner roster loop: relative to a reference list `L`
containing every entry of the remaining list `l`, a recorded best match
has score at least `min_similarity` and names the full name of some
entry of `L` assigned to the queried restaurant. -/
theorem bestFor_good (c r : Str) (ms : ℚ) (L : EmployeeDict) :
    ∀ (l : EmployeeDict) (acc : Option Str × ℚ × Option EmployeeInfo),
      (∀ ke, ke ∈ l → ke ∈ L) →
      (∀ x, acc.1 = some x → ms ≤ acc.2.1 ∧
        ∃ ke ∈ L, r ∈ ke.2.restaurants ∧ x = ke.2.full_name) →
      ∀ x, (bestFor c r ms l acc).1 = some x → ms ≤ (bestFor c r ms l acc).2.1 ∧
        ∃ ke ∈ L, r ∈ ke.2.restaurants ∧ x = ke.2.full_name := by
  intro l
  induction l with
  | nil => intro acc _ hacc x hx; exact hacc x hx
  | cons ke rest ih =>
    intro acc hsub hacc x
    obtain ⟨k, e⟩ := ke
    obtain ⟨bm, bs, bi⟩ := acc
    have hsub' : ∀ p, p ∈ rest → p ∈ L := fun p hp => hsub p (List.mem_cons_of_mem _ hp)
    simp only [bestFor]
    split_ifs with hr hsc
    · exact ih (some e.full_name, similarity_score c e.first_name, some e) hsub'
        (fun y hy => by
          cases hy
          exact ⟨hsc.2, ⟨(k, e), hsub (k, e) (List.mem_cons_self _ _), hr, rfl⟩⟩) x
    · exact ih (bm, bs, bi) hsub' hacc x
    · exact ih (bm, bs, bi) hsub' hacc x

/-- Every emitted match has score at least the threshold, a candidate
outside the resolver stop-list, and names a roster entry assigned to the
queried restaurant. -/
theorem matchLoop_mem (r : Str) (d : EmployeeDict) (ms : ℚ) :
    ∀ (ps : List Str) (m : MatchResult), m ∈ matchLoop r d ms ps →
      ms ≤ m.confidence ∧
      lowerStr m.potential_name ∉ resolverStopWords ∧
      ∃ ke ∈ d, r ∈ ke.2.restaurants ∧ m.matched_employee = ke.2.full_name := by
  intro ps
  induction ps with
  | nil => intro m hm; simp [matchLoop] at hm
  | cons p ps ih =>
    intro m hm
    simp only [matchLoop] at hm
    split at hm
    · exact ih m hm
    · rename_i hstop
      split at hm
      · rename_i bm bs bi hbest
        split at hm
        · exact ih m hm
        · rcases List.mem_cons.1 hm with hhead | htail
          · subst hhead
            have hgood := bestFor_good p r ms d d (none, 0, none)
              (fun ke hk => hk) (fun x hx => by simp at hx) bm (by rw [hbest])
            rw [hbest] at hgood
            exact ⟨hgood.1, hstop, hgood.2⟩
          · exact ih m htail
      · exact ih m hm

/-- Membership in the dedup pass implies membership in the original
list. -/
theorem dedupAux_subset : ∀ (seen l : List Str) (x : Str), x ∈ dedupAux seen l → x ∈ l := by
  intro seen l
  induction l generalizing seen with
  | nil => intro x hx; simp [dedupAux] at hx
  | cons y ys ih =>
    intro x hx
    simp only [dedupAux] at hx
    split at hx
    · exact List.mem_cons_of_mem _ (ih _ x hx)
    · rcases List.mem_cons.1 hx with h | h
      · subst h; exact List.mem_cons_self _ _
      · exact List.mem_cons_of_mem _ (ih _ x h)

/-- Any Python slice is a contiguous piece of the text. -/
theorem slice_as_parts (t : Str) (i j : Nat) : ∃ pre post, pre ++ slice t i j ++ post = t := by
  refine ⟨t.take i, (t.drop i).drop (j - i), ?_⟩
  unfold slice
  rw [List.append_assoc, List.take_append_drop, List.take_append_drop]

/-- Stripping keeps a contiguous piece of the string. -/
theorem pyStrip_as_parts (s : Str) : ∃ pre post, pre ++ pyStrip s ++ post = s := by
  refine ⟨s.takeWhile isSpaceChar,
    (((s.dropWhile isSpaceChar).reverse).takeWhile isSpaceChar).reverse, ?_⟩
  have hmid : pyStrip s ++ (((s.dropWhile isSpaceChar).reverse).takeWhile isSpaceChar).reverse
      = s.dropWhile isSpaceChar := by
    unfold pyStrip
    rw [← List.reverse_append, List.takeWhile_append_dropWhile, List.reverse_reverse]
  rw [List.append_assoc, hmid, List.takeWhile_append_dropWhile]

/-- A stripped slice is still a contiguous piece of the text. -/
theorem strip_slice_parts (t : Str) (i j : Nat) :
    ∃ pre post, pre ++ pyStrip (slice t i j) ++ post = t := by
  obtain ⟨p1, q1, h1⟩ := pyStrip_as_parts (slice t i j)
  obtain ⟨p2, q2, h2⟩ := slice_as_parts t i j
  refine ⟨p2 ++ p1, q1 ++ q2, ?_⟩
  have key : (p2 ++ ((p1 ++ pyStrip (slice t i j)) ++ q1)) ++ q2 = t := by rw [h1]; exact h2
  calc ((p2 ++ p1) ++ pyStrip (slice t i j)) ++ (q1 ++ q2)
      = (p2 ++ ((p1 ++ pyStrip (slice t i j)) ++ q1)) ++ q2 := by simp [List.append_assoc]
    _ = t := key

/-- Every pattern-battery token is at least 3 characters and occurs
verbatim in the text. -/
theorem patternTokens_spec (t x : Str) (hx : x ∈ patternTokens t) :
    3 ≤ x.length ∧ ∃ pre post, pre ++ x ++ post = t := by
  unfold patternTokens at hx
  rw [List.mem_flatten] at hx
  obtain ⟨s, hs, hxs⟩ := hx
  obtain ⟨pRE, _, rfl⟩ := List.mem_map.1 hs
  rw [List.mem_filter] at hxs
  obtain ⟨hxm, hlen⟩ := hxs
  obtain ⟨c, _, rfl⟩ := List.mem_map.1 hxm
  exact ⟨by simpa using hlen, strip_slice_parts t c.1 c.2⟩

/-- Every collected capture comes from a successful match at some
position. -/
theorem finditerCaps_spec (re : RE) (t : Str) :
    ∀ (fuel pos : Nat) (c : Nat × Nat), c ∈ finditerCaps re t fuel pos →
      ∃ p r, reMatchAt re t p = some r ∧ r.2 = some c := by
  intro fuel
  induction fuel with
  | zero => intro pos c hc; simp [finditerCaps] at hc
  | succ fuel ih =>
    intro pos c hc
    simp only [finditerCaps] at hc
    split at hc
    · simp at hc
    · split at hc
      · rename_i endPos c0 hmatch
        rcases List.mem_cons.1 hc with h | h
        · exact ⟨pos, (endPos, some c0), hmatch, by rw [h]⟩
        · exact ih _ c h
      · exact ih _ c hc
      · exact ih _ c hc

/-- Greedy repetition: success means the continuation succeeded at some
count between `minRep` and the tried maximum. -/
theorem repTry_some (k : Nat → Option MRes) (minRep : Nat) :
    ∀ (n : Nat) (r : MRes), repTry k minRep n = some r →
      ∃ m, minRep ≤ m ∧ m ≤ n ∧ k m = some r := by
  intro n
  induction n with
  | zero =>
    intro r h
    simp only [repTry] at h
    split at h
    · exact ⟨0, by omega, le_refl 0, h⟩
    · exact absurd h (by simp)
  | succ n ih =>
    intro r h
    simp only [repTry] at h
    split at h
    · exact absurd h (by simp)
    · rename_i hge
      split at h
      · rename_i r' hk
        cases h
        exact ⟨n + 1, by omega, le_refl _, hk⟩
      · obtain ⟨m, h1, h2, h3⟩ := ih r h
        exact ⟨m, h1, by omega, h3⟩

/-- The run length never exceeds the remaining text. -/
theorem runLen_le (t : Str) (p : Char → Bool) (pos : Nat) : runLen t p pos ≤ t.length - pos := by
  have h1 := (List.takeWhile_sublist (l := t.drop pos) p).length_le
  simpa [runLen] using h1

/-- A successful match of the capitalized-word pattern at `pos` captures
the span `[pos, e)` with `3 ≤ e - pos` and `e` within the text: one
upper-case character and at least two following characters. -/
theorem scanRE_cap_bounds (t : Str) (pos : Nat) (r : MRes) (h : reMatchAt scanRE t pos = some r) :
    ∃ e, r.2 = some (pos, e) ∧ pos + 3 ≤ e ∧ e ≤ t.length := by
  simp only [reMatchAt, scanRE, seqs, reMatch] at h
  split_ifs at h with hb hlen hup
  obtain ⟨m, hm2, hmr, hk⟩ := repTry_some _ _ _ _ h
  have hrun := runLen_le t isAsciiLower (pos + 1)
  split_ifs at hk with hb2
  have hr : r = (pos + 1 + m, some (pos, pos + 1 + m)) := (Option.some.inj hk).symm
  subst hr
  exact ⟨pos + 1 + m, rfl, by omega, by omega⟩

/-- Every scan token is at least 3 characters and occurs verbatim in
the text. -/
theorem scanTokens_spec (t x : Str) (hx : x ∈ scanTokens t) :
    3 ≤ x.length ∧ ∃ pre post, pre ++ x ++ post = t := by
  unfold scanTokens at hx
  rw [List.mem_filter] at hx
  obtain ⟨hxm, _⟩ := hx
  obtain ⟨c, hc, rfl⟩ := List.mem_map.1 hxm
  obtain ⟨p, r, hr, hr2⟩ := finditerCaps_spec scanRE t _ _ c hc
  obtain ⟨e, he, he3, helen⟩ := scanRE_cap_bounds t p r hr
  have hce : c = (p, e) := by rw [hr2] at he; exact Option.some.inj he
  subst hce
  constructor
  · simp only [slice, List.length_take, List.length_drop]
    omega
  · exact slice_as_parts t p e

/-- Every token produced by `extract_potential_names` is at least 3
characters long and occurs verbatim (case preserved, contiguous) in the
comment text. -/
theorem extract_tokens_spec (text : Option Str) (tok : Str)
    (htok : tok ∈ extract_potential_names text) :
    3 ≤ tok.length ∧ ∃ t pre post, text = some t ∧ pre ++ tok ++ post = t := by
  match text with
  | none => simp [extract_potential_names] at htok
  | some t =>
    simp only [extract_potential_names] at htok
    split at htok
    · simp at htok
    · have hmem := dedupAux_subset [] _ tok htok
      rcases List.mem_append.1 hmem with h | h
      · obtain ⟨h3, pre, post, hparts⟩ := patternTokens_spec t tok h
        exact ⟨h3, t, pre, post, rfl, hparts⟩
      · obtain ⟨h3, pre, post, hparts⟩ := scanTokens_spec t tok h
        exact ⟨h3, t, pre, post, rfl, hparts⟩

/-- Extensional agreement of the duplicated inner roster loops. -/
theorem ptBestFor_eq (c r : Str) (ms : ℚ) :
    ∀ (l : EmployeeDict) (acc : Option Str × ℚ × Option EmployeeInfo),
      ProcessTakeout.bestFor c r ms l acc = bestFor c r ms l acc := by
  intro l
  induction l with
  | nil => intro acc; rfl
  | cons ke rest ih =>
    intro acc
    obtain ⟨k, e⟩ := ke
    obtain ⟨bm, bs, bi⟩ := acc
    simp only [ProcessTakeout.bestFor, bestFor,
      show ProcessTakeout.similarity_score = similarity_score from rfl]
    split_ifs <;> exact ih _

/-- Extensional agreement of the duplicated candidate loops. -/
theorem ptMatchLoop_eq (r : Str) (d : EmployeeDict) (ms : ℚ) :
    ∀ ps : List Str, ProcessTakeout.matchLoop r d ms ps = matchLoop r d ms ps := by
  intro ps
  induction ps with
  | nil => rfl
  | cons p ps ih =>
    simp only [ProcessTakeout.matchLoop, matchLoop,
      show ProcessTakeout.resolverStopWords = resolverStopWords from rfl,
      ptBestFor_eq, ih]

/-! ### Claims -/

/-- C1: for every candidate set (any review text), every restaurant and
every roster, with the default minimum similarity 0.80, every
`MatchResult` returned by `match_employee_to_review` has confidence at
least 0.80; no result with a smaller score is ever emitted. -/
theorem resolver_scores_meet_default_threshold (text : Option Str) (restaurant : Str)
    (d : EmployeeDict) (m : MatchResult)
    (hm : m ∈ match_employee_to_review text restaurant d) :
    4/5 ≤ m.confidence := by
  unfold match_employee_to_review at hm
  have h := (matchLoop_mem restaurant d (mkRat 4 5) _ m hm).1
  have e : (4 : ℚ)/5 = mkRat 4 5 := by rw [Rat.mkRat_eq_div]; norm_num
  rw [e]
  exact h

theorem resolver_scores_meet_default_threshold_witness :
    4/5 ≤ (MatchResult.mk "Bob".toList "Bob Lee".toList 1).confidence :=
  resolver_scores_meet_default_threshold (some "Bob is ok".toList) "Grackle".toList
    [("bob".toList, ⟨"Bob Lee".toList, "Bob".toList, ["Grackle".toList]⟩)]
    ⟨"Bob".toList, "Bob Lee".toList, 1⟩ (by decide)

/-- C2: the resolver never matches a candidate to a roster entry whose
`restaurants` list does not contain the queried restaurant — every
emitted result names the full name of some roster entry assigned to that
restaurant (entries not assigned are skipped before scoring). -/
theorem resolver_respects_location_gate (text : Option Str) (restaurant : Str)
    (d : EmployeeDict) (ms : ℚ) (m : MatchResult)
    (hm : m ∈ match_employee_to_review text restaurant d ms) :
    ∃ ke ∈ d, restaurant ∈ ke.2.restaurants ∧ m.matched_employee = ke.2.full_name := by
  unfold match_employee_to_review at hm
  exact (matchLoop_mem restaurant d ms _ m hm).2.2

theorem resolver_respects_location_gate_witness :
    ∃ ke ∈ ([("amber".toList,
        EmployeeInfo.mk "Amber Lane".toList "Amber".toList ["Grackle".toList])] : EmployeeDict),
      "Grackle".toList ∈ ke.2.restaurants ∧
        (MatchResult.mk "Amber".toList "Amber Lane".toList 1).matched_employee = ke.2.full_name :=
  resolver_respects_location_gate (some "Amber is ok".toList) "Grackle".toList
    [("amber".toList, ⟨"Amber Lane".toList, "Amber".toList, ["Grackle".toList]⟩)] (mkRat 4 5)
    ⟨"Amber".toList, "Amber Lane".toList, 1⟩ (by decide)

/-- C3: with a non-empty roster, every row produced by
`add_employee_matches_to_dataframe` carries the three fields as
semicolon-joined renderings of one common match list (hence index-aligned
and of equal length), and a row with no match has all three fields equal
to the empty string — never partially populated. -/
theorem annotation_fields_aligned (df : List ReviewRow) (d : EmployeeDict) (hd : d ≠ [])
    (ar : AnnotatedRow) (har : ar ∈ add_employee_matches_to_dataframe df d) :
    ∃ ms : List MatchResult,
      ar.mentioned_employees = some (joinSemicolon (ms.map (fun m => m.potential_name))) ∧
      ar.employee_matches = some (joinSemicolon (ms.map (fun m => m.matched_employee))) ∧
      ar.employee_confidence = some (joinSemicolon (ms.map (fun m => format2f m.confidence))) ∧
      (ms.map (fun m => m.potential_name)).length = (ms.map (fun m => m.matched_employee)).length ∧
      (ms.map (fun m => m.matched_employee)).length
        = (ms.map (fun m => format2f m.confidence)).length ∧
      (ms = [] → ar.mentioned_employees = some [] ∧ ar.employee_matches = some [] ∧
        ar.employee_confidence = some []) := by
  unfold add_employee_matches_to_dataframe at har
  rw [if_neg (by simpa [List.isEmpty_iff] using hd)] at har
  obtain ⟨r, hr, rfl⟩ := List.mem_map.1 har
  simp only [annotateRow]
  by_cases hrec : r.recent
  · rw [if_pos hrec]
    by_cases hempty : (match_employee_to_review r.comment r.restaurant d).isEmpty
    · rw [if_pos hempty]
      exact ⟨[], rfl, rfl, rfl, rfl, rfl, fun _ => ⟨rfl, rfl, rfl⟩⟩
    · rw [if_neg hempty]
      refine ⟨match_employee_to_review r.comment r.restaurant d, rfl, rfl, rfl,
        by simp, by simp, fun hnil => absurd (by simp [hnil]) hempty⟩
  · rw [if_neg hrec]
    exact ⟨[], rfl, rfl, rfl, rfl, rfl, fun _ => ⟨rfl, rfl, rfl⟩⟩

theorem annotation_fields_aligned_witness :
    ∃ ms : List MatchResult,
      (AnnotatedRow.mk (ReviewRow.mk "Grackle".toList (some "Bob is ok".toList) true)
          (some "Bob".toList) (some "Bob Lee".toList) (some "1.00".toList)).mentioned_employees
        = some (joinSemicolon (ms.map (fun m => m.potential_name))) ∧
      (AnnotatedRow.mk (ReviewRow.mk "Grackle".toList (some "Bob is ok".toList) true)
          (some "Bob".toList) (some "Bob Lee".toList) (some "1.00".toList)).employee_matches
        = some (joinSemicolon (ms.map (fun m => m.matched_employee))) ∧
      (AnnotatedRow.mk (ReviewRow.mk "Grackle".toList (some "Bob is ok".toList) true)
          (some "Bob".toList) (some "Bob Lee".toList) (some "1.00".toList)).employee_confidence
        = some (joinSemicolon (ms.map (fun m => format2f m.confidence))) ∧
      (ms.map (fun m => m.potential_name)).length = (ms.map (fun m => m.matched_employee)).length ∧
      (ms.map (fun m => m.matched_employee)).length
        = (ms.map (fun m => format2f m.confidence)).length ∧
      (ms = [] →
        (AnnotatedRow.mk (ReviewRow.mk "Grackle".toList (some "Bob is ok".toList) true)
          (some "Bob".toList) (some "Bob Lee".toList) (some "1.00".toList)).mentioned_employees
            = some [] ∧
        (AnnotatedRow.mk (ReviewRow.mk "Grackle".toList (some "Bob is ok".toList) true)
          (some "Bob".toList) (some "Bob Lee".toList) (some "1.00".toList)).employee_matches
            = some [] ∧
        (AnnotatedRow.mk (ReviewRow.mk "Grackle".toList (some "Bob is ok".toList) true)
          (some "Bob".toList) (some "Bob Lee".toList) (some "1.00".toList)).employee_confidence
            = some []) :=
  annotation_fields_aligned
    [ReviewRow.mk "Grackle".toList (some "Bob is ok".toList) true]
    [("bob".toList, ⟨"Bob Lee".toList, "Bob".toList, ["Grackle".toList]⟩)]
    (by decide)
    (AnnotatedRow.mk (ReviewRow.mk "Grackle".toList (some "Bob is ok".toList) true)
      (some "Bob".toList) (some "Bob Lee".toList) (some "1.00".toList))
    (by decide)

/-- C4 (counterexample): "Restaurant" is in the extractor's stop-list,
yet with a roster containing a first name "Restaurant" assigned to the
queried restaurant it is emitted as an accepted candidate — the
extractor's stop check compares `word.lower()` against capitalized
entries (never firing), the patterns bypass the stop-lists entirely, and
the resolver's own stop-list does not contain "restaurant". -/
theorem extractor_stoplist_word_accepted :
    "Restaurant".toList ∈ capitalizedStopWords ∧
    ∃ m ∈ match_employee_to_review (some "Restaurant was amazing".toList) "Grackle".toList
        [("restaurant".toList,
          EmployeeInfo.mk "Restaurant Person".toList "Restaurant".toList ["Grackle".toList])],
      m.potential_name = "Restaurant".toList := by decide

/-- C4 (amended): a word whose lowercase form is in the resolver's
stop-list never appears as an accepted candidate in the resolver's
output, regardless of roster contents. -/
theorem resolver_never_emits_stoplisted (text : Option Str) (restaurant : Str)
    (d : EmployeeDict) (ms : ℚ) (m : MatchResult)
    (hm : m ∈ match_employee_to_review text restaurant d ms) :
    lowerStr m.potential_name ∉ resolverStopWords := by
  unfold match_employee_to_review at hm
  exact (matchLoop_mem restaurant d ms _ m hm).2.1

theorem resolver_never_emits_stoplisted_witness :
    lowerStr "Kat".toList ∉ resolverStopWords :=
  resolver_never_emits_stoplisted (some "Kat was here".toList) "Grackle".toList
    [("kat".toList, ⟨"Kat Doe".toList, "Kat".toList, ["Grackle".toList]⟩)] (mkRat 4 5)
    ⟨"Kat".toList, "Kat Doe".toList, 1⟩ (by decide)

/-- C5: on "The food and service were great" the extractor retains the
candidate "The" (the stop check at line 124 compares `word.lower()`
against a capitalized list, so it never excludes anything), contradicting
the claim that it yields no candidates; the annotation nevertheless ends
empty because the resolver's stop-list catches "the". -/
theorem extractor_stoplist_dead_on_scenario :
    extract_potential_names (some "The food and service were great".toList) = ["The".toList] ∧
    ∀ (restaurant : Str) (d : EmployeeDict) (ms : ℚ),
      match_employee_to_review (some "The food and service were great".toList)
        restaurant d ms = [] := by
  refine ⟨by decide, fun restaurant d ms => ?_⟩
  unfold match_employee_to_review
  rw [show extract_potential_names (some "The food and service were great".toList)
    = ["The".toList] from by decide]
  simp only [matchLoop]
  rw [if_pos (by decide)]

/-- C6: extraction of a null/absent or empty comment yields the empty
list, and every returned token has length at least 3 and occurs
verbatim, case preserved, as a contiguous substring of the input text. -/
theorem extract_tokens_length_and_verbatim :
    extract_potential_names none = [] ∧ extract_potential_names (some []) = [] ∧
    ∀ (text : Option Str) (tok : Str), tok ∈ extract_potential_names text →
      3 ≤ tok.length ∧ ∃ t pre post, text = some t ∧ pre ++ tok ++ post = t :=
  ⟨rfl, rfl, extract_tokens_spec⟩

theorem extract_tokens_length_and_verbatim_witness :
    3 ≤ ("Bob".toList : Str).length ∧
    ∃ t pre post, (some "Bob is ok".toList : Option Str) = some t ∧
      pre ++ "Bob".toList ++ post = t :=
  extract_tokens_length_and_verbatim.2.2 (some "Bob is ok".toList) "Bob".toList (by decide)

/-- C7 (counterexample): `similarity_score` is not symmetric — on
("ab", "bacb") it returns 2/3 one way and 1/3 the other, because the
matching-block recursion of `SequenceMatcher` depends on the argument
order. -/
theorem similarity_not_symmetric_counterexample :
    similarity_score "ab".toList "bacb".toList ≠ similarity_score "bacb".toList "ab".toList := by
  decide

/-- C7 (amended): `similarity_score(a, b) = similarity_score(b, a)`
whenever the lowercased strings are equal (in particular when `a = b`);
symmetry fails for general pairs. -/
theorem similarity_symm_of_lower_eq (a b : Str) (h : lowerStr a = lowerStr b) :
    similarity_score a b = similarity_score b a := by
  unfold similarity_score
  rw [h]

theorem similarity_symm_of_lower_eq_witness :
    similarity_score "Jacob".toList "jacob".toList
      = similarity_score "jacob".toList "Jacob".toList :=
  similarity_symm_of_lower_eq "Jacob".toList "jacob".toList (by decide)

/-- C9 (counterexample): with an empty roster the annotation pass does
not add the three output fields at all (the early return at lines
169–171 returns the dataframe unchanged), so the row does not carry
them as empty strings as the claim states. -/
theorem empty_roster_columns_missing :
    ∃ ar ∈ add_employee_matches_to_dataframe
        [ReviewRow.mk "Grackle".toList (some "Bob is ok".toList) true] [],
      ar.mentioned_employees ≠ some [] ∧ ar.employee_matches ≠ some [] ∧
        ar.employee_confidence ≠ some [] := by decide

/-- C9 (amended): when the roster is empty or missing the annotation
pass returns every review row unchanged, without appending the three
fields `mentioned_employees`, `employee_matches`, `employee_confidence`. -/
theorem empty_roster_returns_unannotated (df : List ReviewRow) :
    add_employee_matches_to_dataframe df [] = df.map (fun r => ⟨r, none, none, none⟩) := rfl

/-- C10: the matching core duplicated across the two scripts is
extensionally equal — `similarity_score`, `extract_potential_names` and
`match_employee_to_review` of `scripts/process_takeout.py` return the
same results as the functions of the same names in
`scripts/create_dataset.py` on every input. -/
theorem duplicated_core_extensionally_equal :
    (∀ a b : Str, ProcessTakeout.similarity_score a b = similarity_score a b) ∧
    (∀ text : Option Str,
      ProcessTakeout.extract_potential_names text = extract_potential_names text) ∧
    (∀ (text : Option Str) (restaurant : Str) (d : EmployeeDict) (ms : ℚ),
      ProcessTakeout.match_employee_to_review text restaurant d ms
        = match_employee_to_review text restaurant d ms) := by
  refine ⟨fun a b => rfl, fun text => rfl, fun text restaurant d ms => ?_⟩
  unfold ProcessTakeout.match_employee_to_review match_employee_to_review
  rw [show ProcessTakeout.extract_potential_names text = extract_potential_names text from rfl]
  exact ptMatchLoop_eq restaurant d ms _

end ReviewAnalysis



